import Mathlib

/-!
Shallow embedding of the mask-filter pipeline of `fogpy/filters.py`.

Pixel grids are modelled as functions from a pixel index to a value
(`ℕ → ℚ` for channel grids, `ℕ → Bool` for masks); the water-cloud
filter, whose algorithm is row oriented, uses explicit row lists.
Machine floats are modelled by `ℚ`; a possibly-NaN or uninitialised
float is `Option ℚ` (IEEE NaN propagates through subtraction and makes
every ordered comparison false, which `fbhGtElev` mirrors).
-/

namespace Fogpy

/-- `np.diff`: successive differences `xs[i+1] - xs[i]`. -/
def npDiff (xs : List ℚ) : List ℚ :=
  List.zipWith (fun a b => b - a) xs xs.tail

/-- `np.sign` on rationals. -/
def qSign (q : ℚ) : ℤ :=
  if 0 < q then 1 else if q < 0 then -1 else 0

/-- `CloudFilter.filter_function`, lines 269-270:
`peaks = np.sign(np.diff(hist[0]))` and
`localmin = (np.diff(peaks) > 0).nonzero()[0] + 1`. -/
def localMinIndices (h0 : List ℚ) : List ℕ :=
  let peaks := (npDiff h0).map qSign
  let dpeaks := List.zipWith (fun a b => b - a) peaks peaks.tail
  ((List.range dpeaks.length).filter (fun j => decide (0 < dpeaks.getD j 0))).map (· + 1)

/-- `CloudFilter.filter_function`, lines 284-286: the bin edges
`hist[1][localmin]` that satisfy `<= maxpeak`, `>= minpeak` and `< 0.5`.
The peak bounds `minpeak`/`maxpeak` come from `scipy.signal.find_peaks_cwt`
(an external routine) and are taken as parameters. -/
def cloudThresholdCandidates (h0 h1 : List ℚ) (minpeak maxpeak : ℚ) : List ℚ :=
  ((localMinIndices h0).filterMap (fun i => h1.get? i)).filter
    (fun e => decide (e ≤ maxpeak) && decide (minpeak ≤ e) && decide (e < 1/2))

/-- `CloudFilter.filter_function`, line 287:
`self.thres = np.max(self.hist[1][thres_index])`; `np.max` of an empty
selection raises, modelled by `none`. -/
def cloudThreshold (h0 h1 : List ℚ) (minpeak maxpeak : ℚ) : Option ℚ :=
  (cloudThresholdCandidates h0 h1 minpeak maxpeak).max?

/-- `CloudFilter.filter_function`, line 289: warn iff
`thres > 0 or thres < -5`. -/
def cloudWarning (t : ℚ) : Bool := decide (0 < t) || decide (t < -5)

/-- `CloudFilter` under `BaseArrayFilter.apply` (lines 102-111, 296-298):
the filter sets `self.mask = self.cm_diff > self.thres` and
`self.result = np.ma.array(self.arr, mask=self.mask)`; the masked-array
constructor (`keep_mask`) ORs the input array's mask into the result's
mask, while the returned `self.mask` is the bare filter mask.  First
component: the result grid's mask; second component: `self.mask`. -/
def cloudFilterApplyMask (inm : ℕ → Bool) (cmDiff : ℕ → ℚ) (t : ℚ) :
    (ℕ → Bool) × (ℕ → Bool) :=
  (fun i => inm i || decide (cmDiff i > t), fun i => decide (cmDiff i > t))

/-- `CirrusCloudFilter.find_nearest_lut_sza` key list (line 434). -/
def sza_opt : List ℚ := [1, 125/100, 150/100, 175/100, 2]

/-- `CirrusCloudFilter.find_nearest_lut_bt` key list (line 440). -/
def bt_opt : List ℚ := [260, 270, 280, 290, 300, 310]

/-- `np.argmin([np.abs(x - k) for k in l])` followed by indexing `l`:
returns the first key of `l` minimising the absolute distance to `x`
(NumPy's `argmin` returns the first index attaining the minimum). -/
def argminAbs (x : ℚ) : List ℚ → Option ℚ
  | [] => none
  | k :: ks =>
    match argminAbs x ks with
    | none => some k
    | some b => if |x - k| ≤ |x - b| then some k else some b

/-- `CirrusCloudFilter.find_nearest_lut_sza` (lines 432-436). -/
def find_nearest_lut_sza (sza : ℚ) : ℚ := (argminAbs sza sza_opt).getD 0

/-- `CirrusCloudFilter.find_nearest_lut_bt` (lines 438-442). -/
def find_nearest_lut_bt (bt : ℚ) : ℚ := (argminAbs bt bt_opt).getD 0

/-- `CirrusCloudFilter.lut` (lines 449-454), outer key: 10.8 um BT,
inner key: secant of the solar zenith angle. -/
def cirrus_lut : List (ℚ × List (ℚ × ℚ)) :=
  [ (260, [(1, 55/100), (125/100, 60/100), (150/100, 65/100), (175/100, 90/100), (2, 110/100)]),
    (270, [(1, 58/100), (125/100, 63/100), (150/100, 81/100), (175/100, 103/100), (2, 113/100)]),
    (280, [(1, 130/100), (125/100, 161/100), (150/100, 188/100), (175/100, 214/100), (2, 230/100)]),
    (290, [(1, 306/100), (125/100, 372/100), (150/100, 395/100), (175/100, 427/100), (2, 473/100)]),
    (300, [(1, 577/100), (125/100, 692/100), (150/100, 700/100), (175/100, 742/100), (2, 843/100)]),
    (310, [(1, 941/100), (125/100, 1122/100), (150/100, 1103/100), (175/100, 1160/100), (2, 1339/100)]) ]

/-- Python dictionary indexing `d[x]`: the value at key `x`, `none` when
the key is missing (`KeyError`). -/
def dictLookup {β : Type} (x : ℚ) : List (ℚ × β) → Option β
  | [] => none
  | p :: ps => if p.1 = x then some p.2 else dictLookup x ps

/-- `CirrusCloudFilter.apply_lut(sza, bt) = self.lut[bt][sza]` (line 446). -/
def apply_lut (sza bt : ℚ) : Option ℚ :=
  (dictLookup bt cirrus_lut).bind (fun row => dictLookup sza row)

/-- Per-pixel cirrus threshold (lines 407-414): LUT applied to the
nearest-key-snapped secant and 10.8 um brightness temperature. -/
def cirrusThreshold (secsza bt108 : ℚ) : Option ℚ :=
  apply_lut (find_nearest_lut_sza secsza) (find_nearest_lut_bt bt108)

/-- Per-pixel cirrus mask (lines 395, 418-423): split-window difference
`ir108 - ir120` above the LUT threshold, OR the strong cirrus test
`ir087 - ir108 > 0`. -/
def cirrusMaskPixel (secsza ir108 ir120 ir087 : ℚ) : Option Bool :=
  (cirrusThreshold secsza ir108).map
    (fun t => decide (ir108 - ir120 > t) || decide (ir087 - ir108 > 0))

/-- Masked-array boolean-index assignment `m[clusters == v] = b` for the
cloud-top-height filter's `True`-only writes.  NumPy's masked comparison
puts `False` in the index data at entries masked in the cluster grid, so
the code skips those pixels; but at both call sites the target mask is
(an alias of) `clusters.mask` itself, so the skipped pixels already hold
`True` and writing every pixel whose label datum equals `v` is
extensionally the same. -/
def setClusterVal (m : ℕ → Bool) (labels : ℕ → ℕ) (v : ℕ) (b : Bool) : ℕ → Bool :=
  fun i => if labels i = v then b else m i

/-- `SpatialCloudTopHeightFilter.filter_function`, lines 531-534: starting
from the label grid's own mask (`cluster_mask = self.clusters.mask`), every
cluster with some height observation above 2000 m is set `True` wholesale. -/
def spatialCTH_cluster_mask (cmask : ℕ → Bool) (labels : ℕ → ℕ)
    (cluster_z : List (ℕ × List ℚ)) : ℕ → Bool :=
  cluster_z.foldl
    (fun m kv =>
      if kv.2.any (fun c => decide (2000 < c)) then setClusterVal m labels kv.1 true else m)
    cmask

/-- State visible after one `SpatialCloudTopHeightFilter` invocation. -/
structure CTHRun where
  labelsOut : ℕ → ℕ
  clustersMaskOut : ℕ → Bool
  maskOut : ℕ → Bool

/-- The cloud-top-height filter as a transformer of the label grid's state:
`cluster_mask = self.clusters.mask` (line 531) aliases the label grid's
mask, the loop writes into it in place, and `self.mask = cluster_mask`
(line 543) returns that same updated mask.  The label data is not written. -/
def spatialCTH_run (labels : ℕ → ℕ) (cmask : ℕ → Bool)
    (cluster_z : List (ℕ × List ℚ)) : CTHRun :=
  let newMask := spatialCTH_cluster_mask cmask labels cluster_z
  ⟨labels, newMask, newMask⟩

/-- `SpatialHomogeneityFilter.filter_function`, lines 566-580: starting from
the inbound mask (`cluster_mask = self.inmask`, an in-place alias), the
loop writes the verdict `cluster_sd[val-1] > 2.5` into the pixels selected
by the boolean index `cluster_ma == val` (`val = 1..nlbl`).
`cluster_ma = np.ma.masked_where(self.inmask, self.clusters)` (line 568)
snapshots the mask `inmask | clusters.mask` before the loop, and NumPy's
masked comparison puts `False` in the index data at masked entries, so
only the pixels of cluster `val` that are unmasked in both the inbound
mask `inm` and the cluster grid's mask `cmask` are written; all others
keep their inbound value.  `sd` abstracts the external
`scipy.ndimage.standard_deviation` call (an irrational square root), and
`nlbl` the component count returned by `scipy.ndimage.label`. -/
def spatialHomogeneityMask (inm cmask : ℕ → Bool) (labels : ℕ → ℕ) (nlbl : ℕ)
    (sd : ℕ → ℚ) : ℕ → Bool :=
  (List.range nlbl).foldl
    (fun m j => fun i =>
      if labels i = j + 1 ∧ inm i = false ∧ cmask i = false then decide (5/2 < sd (j + 1))
      else m i)
    inm

/-- 3.7 um liquid-water-path correction factor (line 627). -/
def lwp_corr : ℚ := 88/100

/-- `LowCloudFilter.get_fog_base_height` (lines 686-706): the external
`LowWaterCloud` model invocation (`run`, abstracted; `none` models the call
raising) receives the corrected water path `cwp * lwp_corr`; any error is
recovered as `(np.nan, np.nan)`, modelled by `(none, none)`. -/
def get_fog_base_height (run : ℚ → Option (ℚ × ℚ)) (cwp : ℚ) : Option ℚ × Option ℚ :=
  match run (cwp * lwp_corr) with
  | some p => (some p.1, some p.2)
  | none => (none, none)

/-- The masking test `fbh - elev > 0` (lines 671-673) with a possibly-NaN
fog-base height: IEEE NaN propagates through the subtraction and every
ordered comparison against it is false. -/
def fbhGtElev (fbh : Option ℚ) (elev : ℚ) : Bool :=
  match fbh with
  | some v => decide (0 < v - elev)
  | none => false

/-- Grids owned by `LowCloudFilter.filter_function` during assembly. -/
structure LCFState where
  cbh : ℕ → Option ℚ
  fbh : ℕ → Option ℚ
  fogMask : ℕ → Bool

/-- One iteration of the assembly loop (lines 667-673) for `(key, res)`:
`self.cbh[self.clusters == keys[i]] = res[0]`,
`self.fbh[self.clusters == keys[i]] = res[1]`, then
`self.fog_mask[(self.clusters == keys[i]) & (self.fbh - self.elev > 0)] = True`
(the mask test reads the just-updated `fbh` grid). -/
def lcfStep (labels : ℕ → ℕ) (elev : ℕ → ℚ) (st : LCFState)
    (kr : ℕ × (Option ℚ × Option ℚ)) : LCFState :=
  let fbh := fun i => if labels i = kr.1 then kr.2.2 else st.fbh i
  { cbh := fun i => if labels i = kr.1 then kr.2.1 else st.cbh i
    fbh := fbh
    fogMask := fun i =>
      if labels i = kr.1 ∧ fbhGtElev (fbh i) (elev i) then true else st.fogMask i }

/-- Lines 641-644 and 666-673: `cbh`/`fbh` start out undefined (`np.empty`),
`self.fog_mask = self.clusters.mask` aliases the label grid's mask, and the
`i`-th entry of the result list is attributed to `keys[i]`. -/
def lowCloudAssemble (labels : ℕ → ℕ) (elev : ℕ → ℚ) (cmask : ℕ → Bool)
    (keys : List ℕ) (results : List (Option ℚ × Option ℚ)) : LCFState :=
  (keys.zip results).foldl (lcfStep labels elev)
    ⟨fun _ => none, fun _ => none, cmask⟩

/-- The cluster-physics evaluator with an explicit completion order:
worker callbacks append to `self.result_list` in completion order
(`log_result`, lines 681-684), `completion` being some permutation of the
submitted `keys`, and the assembly then pairs that list positionally with
`keys` (lines 666-668). -/
def lowCloudFilterRun (labels : ℕ → ℕ) (elev : ℕ → ℚ) (cmask : ℕ → Bool)
    (keys completion : List ℕ) (f : ℕ → Option ℚ × Option ℚ) : LCFState :=
  lowCloudAssemble labels elev cmask keys (completion.map f)

/-- Normalised difference index `(vis006 - nir016) / (vis006 + nir016)`
(lines 478-479). -/
def ndsi (vis006 nir016 : ℚ) : ℚ := (vis006 - nir016) / (vis006 + nir016)

/-- Row mean of the 3.9 um channel over the pixels kept by
`np.ma.masked_where(~self.cloudmask, self.ir039)` (lines 483-485), i.e.
those whose `cloudmask` entry is true; `none` models the masked (undefined)
mean of a row with no such pixel. -/
def rowCloudFreeMean (row : List ℚ) (cfree : List Bool) : Option ℚ :=
  let vals := (row.zip cfree).filterMap (fun p => if p.2 then some p.1 else none)
  if vals.length = 0 then none else some (vals.sum / vals.length)

/-- `self.lat_cloudfree = np.ma.mean(cloud_free_ma, 1)` (line 485). -/
def latCloudfree (ir039 : List (List ℚ)) (cloudmask : List (List Bool)) :
    List (Option ℚ) :=
  List.zipWith rowCloudFreeMean ir039 cloudmask

/-- `np.mean(self.lat_cloudfree)` (line 508): the mean of the defined row
means, used as the fallback threshold. -/
def meanOfRowMeans (ms : List (Option ℚ)) : Option ℚ :=
  let vals := ms.filterMap id
  if vals.length = 0 then none else some (vals.sum / vals.length)

/-- `WaterCloudFilter.find_watercloud` (lines 500-513) on a plain
(unmasked) channel row, as produced by the pipeline: the row is flagged by
`lat <= thres[self.line]`, falling back to the global value `g`
(`np.mean(self.lat_cloudfree)`) when the row's own mean is masked. -/
def find_watercloud (row : List ℚ) (thres : Option ℚ) (g : ℚ) : List Bool :=
  match thres with
  | some t => row.map (fun v => decide (v ≤ t))
  | none => row.map (fun v => decide (v ≤ g))

/-- `drop_mask = np.apply_along_axis(self.find_watercloud, 1, self.ir039,
self.lat_cloudfree)` (lines 488-491): row `i` is evaluated against
`lat_cloudfree[i]` via the `self.line` counter. -/
def waterCloudDropMask (ir039 : List (List ℚ)) (cloudmask : List (List Bool))
    (g : ℚ) : List (List Bool) :=
  List.zipWith (fun row m => find_watercloud row m g) ir039
    (latCloudfree ir039 cloudmask)

/-- `WaterCloudFilter.filter_function` final mask (lines 478-494):
`self.mask = water_mask | drop_mask` with `water_mask = ndsi_ci > 0.1`. -/
def waterCloudMask (vis006 nir016 ir039 : List (List ℚ))
    (cloudmask : List (List Bool)) (g : ℚ) : List (List Bool) :=
  List.zipWith (fun pr dr => List.zipWith (fun p d => p || d) pr dr)
    (List.zipWith
      (fun rv rn => List.zipWith (fun a b => decide (1/10 < ndsi a b)) rv rn)
      vis006 nir016)
    (waterCloudDropMask ir039 cloudmask g)

/-- `BaseArrayFilter.isapplicable` (lines 113-123): `hasattr` checks only
the presence of each required attribute name.  Attributes are modelled
together with their array shapes, which the check never consults. -/
def isapplicable (attrlist : List String) (present : List (String × ℕ × ℕ)) : Bool :=
  attrlist.all (fun a => present.any (fun p => p.1 == a))

/-- The attributes reported by the `logger.warning("Missing input
attribute: ...")` calls in `isapplicable` (line 121). -/
def missingAttrs (attrlist : List String) (present : List (String × ℕ × ℕ)) :
    List String :=
  attrlist.filter (fun a => !(present.any (fun p => p.1 == a)))

/-- `BaseArrayFilter.apply` (lines 102-111): when the filter is not
applicable it raises `NotApplicableError` naming the filter class, without
running the filter algorithm; otherwise it returns the filter output. -/
def baseApply {α : Type} (name : String) (attrlist : List String)
    (present : List (String × ℕ × ℕ)) (filterOut : α) : Except String α :=
  if isapplicable attrlist present then Except.ok filterOut
  else Except.error ("Array filter <" ++ name ++ "> is not applicable")

/-! ### Helper lemmas -/

lemma argminAbs_mem (x : ℚ) : ∀ (l : List ℚ) (b : ℚ), argminAbs x l = some b → b ∈ l := by
  intro l
  induction l with
  | nil => intro b h; simp [argminAbs] at h
  | cons k ks ih =>
    intro b h
    rw [argminAbs] at h
    cases hres : argminAbs x ks with
    | none => rw [hres] at h; simp_all
    | some c =>
      rw [hres] at h
      dsimp only at h
      by_cases hle : |x - k| ≤ |x - c|
      · rw [if_pos hle] at h
        simp_all
      · rw [if_neg hle] at h
        have hb : b = c := by simp_all
        subst hb
        exact List.mem_cons_of_mem _ (ih b hres)

lemma argminAbs_isSome (x k : ℚ) (ks : List ℚ) : (argminAbs x (k :: ks)).isSome := by
  rw [argminAbs]
  cases argminAbs x ks with
  | none => rfl
  | some c =>
    by_cases hle : |x - k| ≤ |x - c| <;> simp [hle]

lemma argminAbs_eq_of_unique (x k : ℚ) : ∀ (l : List ℚ), k ∈ l →
    (∀ kp ∈ l, kp ≠ k → |x - k| < |x - kp|) → argminAbs x l = some k := by
  intro l
  induction l with
  | nil => intro h; cases h
  | cons a as ih =>
    intro hmem hq
    rw [argminAbs]
    by_cases hak : a = k
    · subst hak
      cases hres : argminAbs x as with
      | none => rfl
      | some c =>
        have hc : c ∈ as := argminAbs_mem x as c hres
        dsimp only
        by_cases hck : c = a
        · subst hck; simp
        · have hlt := hq c (List.mem_cons_of_mem _ hc) hck
          rw [if_pos (le_of_lt hlt)]
    · have hkas : k ∈ as := by
        rcases List.mem_cons.mp hmem with h | h
        · exact absurd h.symm hak
        · exact h
      have hres := ih hkas (fun kp hp hne => hq kp (List.mem_cons_of_mem _ hp) hne)
      rw [hres]
      dsimp only
      have hlt : |x - k| < |x - a| := hq a (List.mem_cons_self a as) hak
      rw [if_neg (not_le.mpr hlt)]

/-! ### Claim theorems: cirrus filter -/

/-- Claim C10: for every rational secant-of-zenith and brightness
temperature, the nearest-key snapping functions return members of the LUT
key sets, so the nested lookup always yields a defined threshold. -/
theorem cirrus_lut_total : ∀ s b : ℚ,
    find_nearest_lut_sza s ∈ sza_opt ∧ find_nearest_lut_bt b ∈ bt_opt
    ∧ (cirrusThreshold s b).isSome := by
  have hlut : ∀ ks ∈ sza_opt, ∀ kb ∈ bt_opt, (apply_lut ks kb).isSome := by
    norm_num [sza_opt, bt_opt, apply_lut, cirrus_lut, dictLookup]
  intro s b
  have hs : find_nearest_lut_sza s ∈ sza_opt := by
    cases hres : argminAbs s sza_opt with
    | none =>
      have h2 : (argminAbs s sza_opt).isSome :=
        argminAbs_isSome s 1 [125/100, 150/100, 175/100, 2]
      rw [hres] at h2
      cases h2
    | some c =>
      have hc := argminAbs_mem s sza_opt c hres
      unfold find_nearest_lut_sza
      rw [hres]
      simpa using hc
  have hb : find_nearest_lut_bt b ∈ bt_opt := by
    cases hres : argminAbs b bt_opt with
    | none =>
      have h2 : (argminAbs b bt_opt).isSome :=
        argminAbs_isSome b 260 [270, 280, 290, 300, 310]
      rw [hres] at h2
      cases h2
    | some c =>
      have hc := argminAbs_mem b bt_opt c hres
      unfold find_nearest_lut_bt
      rw [hres]
      simpa using hc
  exact ⟨hs, hb, hlut _ hs _ hb⟩

/-- Claim C6: on-key inputs give the exact tabulated threshold, inputs with
a unique nearest key on each axis give the threshold at those nearest keys,
and a pixel is cirrus-masked iff its split-window difference exceeds the
threshold or the strong test `ir087 - ir108` exceeds 0. -/
theorem cirrus_lut_spec (s b ks kb : ℚ)
    (hks : ks ∈ sza_opt) (hkb : kb ∈ bt_opt)
    (hsn : ∀ k ∈ sza_opt, k ≠ ks → |s - ks| < |s - k|)
    (hbn : ∀ k ∈ bt_opt, k ≠ kb → |b - kb| < |b - k|) :
    find_nearest_lut_sza s = ks ∧ find_nearest_lut_bt b = kb
    ∧ cirrusThreshold s b = apply_lut ks kb
    ∧ (∀ s0 ∈ sza_opt, find_nearest_lut_sza s0 = s0)
    ∧ (∀ b0 ∈ bt_opt, find_nearest_lut_bt b0 = b0)
    ∧ (∀ ir120 ir087 t, cirrusThreshold s b = some t →
        (cirrusMaskPixel s b ir120 ir087 = some true ↔ (b - ir120 > t ∨ ir087 - b > 0))) := by
  have hfs : find_nearest_lut_sza s = ks := by
    unfold find_nearest_lut_sza
    rw [argminAbs_eq_of_unique s ks sza_opt hks hsn]
    rfl
  have hfb : find_nearest_lut_bt b = kb := by
    unfold find_nearest_lut_bt
    rw [argminAbs_eq_of_unique b kb bt_opt hkb hbn]
    rfl
  refine ⟨hfs, hfb, ?_, ?_, ?_, ?_⟩
  case _ => unfold cirrusThreshold; rw [hfs, hfb]
  case _ =>
    norm_num [sza_opt, find_nearest_lut_sza, argminAbs, abs]
  case _ =>
    norm_num [bt_opt, find_nearest_lut_bt, argminAbs, abs]
  case _ =>
    intro ir120 ir087 t ht
    unfold cirrusMaskPixel
    rw [ht]
    simp

/-- Witness for C6 at the claim's concrete scenario: secant exactly 1.0 and
brightness temperature exactly 260 K give the tabulated threshold 0.55. -/
theorem cirrus_lut_spec_wit :
    find_nearest_lut_sza 1 = 1 ∧ find_nearest_lut_bt 260 = 260
    ∧ cirrusThreshold 1 260 = some (55/100) := by
  have h := cirrus_lut_spec 1 260 1 260 (by norm_num [sza_opt]) (by norm_num [bt_opt])
    (by norm_num [sza_opt]) (by norm_num [bt_opt])
  refine ⟨h.1, h.2.1, ?_⟩
  rw [h.2.2.1]
  norm_num [apply_lut, cirrus_lut, dictLookup]

/-! ### Pointwise characterisations of the two clustering filters -/

lemma spatialCTH_mask_apply (labels : ℕ → ℕ) :
    ∀ (cz : List (ℕ × List ℚ)) (cmask : ℕ → Bool) (i : ℕ),
      spatialCTH_cluster_mask cmask labels cz i =
        (cmask i ||
          cz.any (fun kv => decide (labels i = kv.1) && kv.2.any (fun c => decide (2000 < c)))) := by
  intro cz
  induction cz with
  | nil => intro cmask i; simp [spatialCTH_cluster_mask]
  | cons kv rest ih =>
    intro cmask i
    have hstep : spatialCTH_cluster_mask cmask labels (kv :: rest) =
        spatialCTH_cluster_mask
          (if kv.2.any (fun c => decide (2000 < c)) then setClusterVal cmask labels kv.1 true
           else cmask)
          labels rest := by
      unfold spatialCTH_cluster_mask
      rw [List.foldl_cons]
    rw [hstep, ih]
    by_cases ha : kv.2.any (fun c => decide (2000 < c)) = true
    · rw [if_pos ha]
      unfold setClusterVal
      by_cases hl : labels i = kv.1
      · simp [hl, ha]
      · simp [hl, ha]
    · rw [if_neg ha]
      simp only [Bool.not_eq_true] at ha
      simp [ha]

lemma spatialHomogeneityMask_apply (inm cmask : ℕ → Bool) (labels : ℕ → ℕ) (sd : ℕ → ℚ) :
    ∀ (nlbl : ℕ) (i : ℕ),
      spatialHomogeneityMask inm cmask labels nlbl sd i =
        if 1 ≤ labels i ∧ labels i ≤ nlbl ∧ inm i = false ∧ cmask i = false then
          decide (5/2 < sd (labels i))
        else inm i := by
  intro nlbl
  induction nlbl with
  | zero =>
    intro i
    simp only [spatialHomogeneityMask, List.range_zero, List.foldl_nil]
    rw [if_neg (by rintro ⟨h1, h2, h3⟩; omega)]
  | succ n ih =>
    intro i
    have hstep : spatialHomogeneityMask inm cmask labels (n + 1) sd =
        (fun i2 => if labels i2 = n + 1 ∧ inm i2 = false ∧ cmask i2 = false
          then decide (5/2 < sd (n + 1))
          else spatialHomogeneityMask inm cmask labels n sd i2) := by
      unfold spatialHomogeneityMask
      rw [List.range_succ, List.foldl_append, List.foldl_cons, List.foldl_nil]
    rw [hstep]
    dsimp only
    by_cases h : labels i = n + 1 ∧ inm i = false ∧ cmask i = false
    · rw [if_pos h, h.1, if_pos ⟨by omega, le_refl _, h.2⟩]
    · rw [if_neg h, ih i]
      have hiff : (1 ≤ labels i ∧ labels i ≤ n ∧ inm i = false ∧ cmask i = false)
          ↔ (1 ≤ labels i ∧ labels i ≤ n + 1 ∧ inm i = false ∧ cmask i = false) := by
        constructor
        · rintro ⟨h1, h2, h3⟩
          exact ⟨h1, by omega, h3⟩
        · rintro ⟨h1, h2, h3⟩
          have hneq : labels i ≠ n + 1 := fun heq => h ⟨heq, h3⟩
          exact ⟨h1, by omega, h3⟩
      rw [if_congr hiff rfl rfl]

/-! ### Claim theorem: cluster atomicity -/

/-- Claim C5: under the label-grid consistency of the data model (the
cluster grid's mask and the inbound mask flag exactly the background label
0, i.e. every pixel of a cluster is unmasked coming in) and distinct
dictionary keys, both clustering filters give every pixel of a cluster an
identical mask outcome; the cloud-top-height filter masks all pixels of a
cluster iff some of its height observations exceeds 2000 m, and none
otherwise. -/
theorem cluster_atomicity_spec (cmask inm : ℕ → Bool) (labels : ℕ → ℕ)
    (cz : List (ℕ × List ℚ)) (nlbl : ℕ) (sd : ℕ → ℚ)
    (hcons : ∀ i, cmask i = decide (labels i = 0))
    (hinm : ∀ i, inm i = decide (labels i = 0))
    (hnodup : (cz.map Prod.fst).Nodup)
    (hrange : ∀ i, labels i ≤ nlbl) :
    (∀ i j, labels i = labels j →
      spatialCTH_cluster_mask cmask labels cz i = spatialCTH_cluster_mask cmask labels cz j)
    ∧ (∀ i j, labels i = labels j → labels i ≠ 0 →
      spatialHomogeneityMask inm cmask labels nlbl sd i
        = spatialHomogeneityMask inm cmask labels nlbl sd j)
    ∧ (∀ k item, (k, item) ∈ cz → k ≠ 0 →
        ((∃ c ∈ item, 2000 < c) →
          ∀ i, labels i = k → spatialCTH_cluster_mask cmask labels cz i = true)
        ∧ ((∀ c ∈ item, c ≤ 2000) →
          ∀ i, labels i = k → spatialCTH_cluster_mask cmask labels cz i = false)) := by
  refine ⟨?_, ?_, ?_⟩
  · intro i j hij
    rw [spatialCTH_mask_apply, spatialCTH_mask_apply, hcons, hcons, hij]
  · intro i j hij hne
    have hnej : labels j ≠ 0 := by rw [← hij]; exact hne
    have hii : inm i = false := by rw [hinm i]; exact decide_eq_false hne
    have hci : cmask i = false := by rw [hcons i]; exact decide_eq_false hne
    have hij2 : inm j = false := by rw [hinm j]; exact decide_eq_false hnej
    have hcj : cmask j = false := by rw [hcons j]; exact decide_eq_false hnej
    have h1j : 1 ≤ labels j := by omega
    rw [spatialHomogeneityMask_apply, spatialHomogeneityMask_apply, hij,
      if_pos ⟨h1j, hrange j, hii, hci⟩, if_pos ⟨h1j, hrange j, hij2, hcj⟩]
  · intro k item hmem hk0
    constructor
    · intro hex i hi
      rw [spatialCTH_mask_apply]
      have : cz.any (fun kv => decide (labels i = kv.1) && kv.2.any (fun c => decide (2000 < c)))
          = true := by
        rw [List.any_eq_true]
        refine ⟨(k, item), hmem, ?_⟩
        rcases hex with ⟨c, hc, hc2⟩
        simp only [Bool.and_eq_true, decide_eq_true_eq, List.any_eq_true]
        exact ⟨hi, c, hc, hc2⟩
      rw [this, Bool.or_true]
    · intro hall i hi
      rw [spatialCTH_mask_apply, hcons, hi]
      have hz : decide (k = 0) = false := by
        simp [hk0]
      rw [hz, Bool.false_or, List.any_eq_false]
      intro kv hkv
      simp only [Bool.and_eq_true, not_and, decide_eq_true_eq, List.any_eq_true]
      intro hkeq
      rcases kv with ⟨k2, item2⟩
      dsimp only at hkeq ⊢
      subst hkeq
      have heq := List.inj_on_of_nodup_map hnodup hkv hmem rfl
      injection heq with h1 h2
      subst h2
      rintro ⟨c, hc, hc2⟩
      exact absurd (hall c hc) (not_le.mpr hc2)

/-- Witness for C5 on a two-pixel scene with one cluster whose height
observations stay below 2000 m. -/
theorem cluster_atomicity_spec_wit :
    spatialCTH_cluster_mask (fun i => decide ((if i < 2 then 1 else 0) = 0))
        (fun i => if i < 2 then 1 else 0) [(1, [1500, 1800])] 0 =
      spatialCTH_cluster_mask (fun i => decide ((if i < 2 then 1 else 0) = 0))
        (fun i => if i < 2 then 1 else 0) [(1, [1500, 1800])] 1
    ∧ spatialCTH_cluster_mask (fun i => decide ((if i < 2 then 1 else 0) = 0))
        (fun i => if i < 2 then 1 else 0) [(1, [1500, 1800])] 0 = false
    ∧ spatialHomogeneityMask (fun i => decide ((if i < 2 then 1 else 0) = 0))
        (fun i => decide ((if i < 2 then 1 else 0) = 0))
        (fun i => if i < 2 then 1 else 0) 1 (fun _ => 0) 0 =
      spatialHomogeneityMask (fun i => decide ((if i < 2 then 1 else 0) = 0))
        (fun i => decide ((if i < 2 then 1 else 0) = 0))
        (fun i => if i < 2 then 1 else 0) 1 (fun _ => 0) 1 := by
  have h := cluster_atomicity_spec
    (fun i => decide ((if i < 2 then 1 else 0) = 0))
    (fun i => decide ((if i < 2 then 1 else 0) = 0))
    (fun i => if i < 2 then 1 else 0) [(1, [1500, 1800])] 1 (fun _ => 0)
    (fun i => rfl) (fun i => rfl) (by simp)
    (by intro i; by_cases h2 : i < 2 <;> simp [h2])
  refine ⟨h.1 0 1 (by simp), ?_, h.2.1 0 1 (by simp) (by simp)⟩
  refine (h.2.2 1 [1500, 1800] (by simp) (by simp)).2 ?_ 0 (by simp)
  intro c hc
  rcases List.mem_cons.mp hc with h1 | h1
  · rw [h1]; norm_num
  · rcases List.mem_cons.mp h1 with h2 | h2
    · rw [h2]; norm_num
    · cases h2

/-! ### Low-cloud evaluator lemmas -/

lemma lcf_fold_fogMask_eq (labels : ℕ → ℕ) (elev : ℕ → ℚ) (i : ℕ) :
    ∀ (l : List (ℕ × (Option ℚ × Option ℚ))) (st : LCFState),
      (∀ p ∈ l, p.1 = labels i → p.2.2 = none) →
      (l.foldl (lcfStep labels elev) st).fogMask i = st.fogMask i := by
  intro l
  induction l with
  | nil => intro st h; rfl
  | cons p rest ih =>
    intro st h
    rw [List.foldl_cons, ih _ (fun q hq => h q (List.mem_cons_of_mem _ hq))]
    show (lcfStep labels elev st p).fogMask i = st.fogMask i
    unfold lcfStep
    by_cases hl : labels i = p.1
    · have hnone : p.2.2 = none := h p (List.mem_cons_self _ _) hl.symm
      simp [hl, hnone, fbhGtElev]
    · simp [hl]

lemma lcf_fold_untouched (labels : ℕ → ℕ) (elev : ℕ → ℚ) (i : ℕ) :
    ∀ (l : List (ℕ × (Option ℚ × Option ℚ))) (st : LCFState),
      (∀ p ∈ l, p.1 ≠ labels i) →
      (l.foldl (lcfStep labels elev) st).cbh i = st.cbh i
      ∧ (l.foldl (lcfStep labels elev) st).fbh i = st.fbh i
      ∧ (l.foldl (lcfStep labels elev) st).fogMask i = st.fogMask i := by
  intro l
  induction l with
  | nil => intro st h; exact ⟨rfl, rfl, rfl⟩
  | cons p rest ih =>
    intro st h
    have hp : p.1 ≠ labels i := h p (List.mem_cons_self _ _)
    have hl : ¬ (labels i = p.1) := fun hcon => hp hcon.symm
    have hrest := ih (lcfStep labels elev st p) (fun q hq => h q (List.mem_cons_of_mem _ hq))
    rw [List.foldl_cons]
    refine ⟨?_, ?_, ?_⟩
    · rw [hrest.1]
      simp [lcfStep, hl]
    · rw [hrest.2.1]
      simp [lcfStep, hl]
    · rw [hrest.2.2]
      simp [lcfStep, hl]

lemma lcf_fold_attr (labels : ℕ → ℕ) (elev : ℕ → ℚ) (i : ℕ) :
    ∀ (l : List (ℕ × (Option ℚ × Option ℚ))) (st : LCFState) (k : ℕ)
      (r : Option ℚ × Option ℚ),
      (l.map Prod.fst).Nodup → (k, r) ∈ l → labels i = k →
      (l.foldl (lcfStep labels elev) st).cbh i = r.1
      ∧ (l.foldl (lcfStep labels elev) st).fbh i = r.2 := by
  intro l
  induction l with
  | nil => intro st k r _ hmem; cases hmem
  | cons p rest ih =>
    intro st k r hnd hmem hlab
    have hnd2 := List.nodup_cons.mp hnd
    rw [List.foldl_cons]
    rcases List.mem_cons.mp hmem with heq | hrest
    · subst heq
      have hnk : ∀ q ∈ rest, q.1 ≠ labels i := by
        intro q hq hcon
        apply hnd2.1
        rw [show (k, r).1 = q.1 from (by rw [hcon, hlab])]
        exact List.mem_map_of_mem Prod.fst hq
      have hu := lcf_fold_untouched labels elev i rest (lcfStep labels elev st (k, r)) hnk
      refine ⟨?_, ?_⟩
      · rw [hu.1]
        simp [lcfStep, hlab]
      · rw [hu.2.1]
        simp [lcfStep, hlab]
    · exact ih _ k r hnd2.2 hrest hlab

lemma lcf_fold_fogMask_mono (labels : ℕ → ℕ) (elev : ℕ → ℚ) (i : ℕ) :
    ∀ (l : List (ℕ × (Option ℚ × Option ℚ))) (st : LCFState),
      st.fogMask i = true → (l.foldl (lcfStep labels elev) st).fogMask i = true := by
  intro l
  induction l with
  | nil => intro st h; exact h
  | cons p rest ih =>
    intro st h
    rw [List.foldl_cons]
    apply ih
    unfold lcfStep
    dsimp only
    have hgen : ∀ (c : Prop) [Decidable c] (b : Bool), b = true → (if c then true else b) = true := by
      intro c hc b hb
      by_cases h2 : c
      · rw [if_pos h2]
      · rw [if_neg h2]; exact hb
    exact hgen _ _ h

/-! ### Helper lemmas about `keys.zip (keys.map f)` -/

lemma mem_zip_self_map {α β : Type} (f : α → β) :
    ∀ (l : List α) (p : α × β), p ∈ l.zip (l.map f) → p.2 = f p.1 ∧ p.1 ∈ l := by
  intro l
  induction l with
  | nil => intro p h; cases h
  | cons a as ih =>
    intro p h
    rw [List.map_cons, List.zip_cons_cons] at h
    rcases List.mem_cons.mp h with h1 | h1
    · subst h1
      exact ⟨rfl, List.mem_cons_self _ _⟩
    · have h2 := ih p h1
      exact ⟨h2.1, List.mem_cons_of_mem _ h2.2⟩

lemma zip_self_map_mem {α β : Type} (f : α → β) :
    ∀ (l : List α) (k : α), k ∈ l → (k, f k) ∈ l.zip (l.map f) := by
  intro l
  induction l with
  | nil => intro k h; cases h
  | cons a as ih =>
    intro k h
    rw [List.map_cons, List.zip_cons_cons]
    rcases List.mem_cons.mp h with h1 | h1
    · subst h1
      exact List.mem_cons_self _ _
    · exact List.mem_cons_of_mem _ (ih k h1)

lemma zip_self_map_fst {α β : Type} (f : α → β) (l : List α) :
    (l.zip (l.map f)).map Prod.fst = l :=
  List.map_fst_zip l (l.map f) (by rw [List.length_map])

/-! ### Claim theorems: mask merging (C1) -/

/-- Counterexample for C1: the mask component returned by `apply()` is not
the OR of the filter mask with the inbound mask — an inbound-masked pixel
whose channel difference stays under the threshold comes back unmasked in
the returned `self.mask`, even though the returned value grid's mask still
has it masked. -/
theorem apply_mask_merge_cex :
    ((cloudFilterApplyMask (fun i => decide (i = 0)) (fun _ => 0) 1).2 0 = false)
    ∧ ((fun i => decide (i = 0) : ℕ → Bool) 0 = true)
    ∧ ((cloudFilterApplyMask (fun i => decide (i = 0)) (fun _ => 0) 1).1 0 = true) := by
  refine ⟨?_, rfl, ?_⟩
  · show decide ((0 : ℚ) > 1) = false
    norm_num
  · show ((fun i => decide (i = 0) : ℕ → Bool) 0 || decide ((0 : ℚ) > 1)) = true
    rw [show ((fun i => decide (i = 0) : ℕ → Bool) 0) = true from rfl, Bool.true_or]

/-- Claim C1 as amended: the value grid returned by `apply()` carries the
OR of the inbound mask with the filter's computed mask, so every
inbound-masked pixel stays masked along the chained results, and the
spatial-homogeneity filter's per-cluster writes skip inbound-masked pixels
(NumPy's masked comparison excludes them from the boolean index), so no
filter ever unmasks a previously masked pixel; but the bare mask component
`apply()` returns is the filter's own mask, not the OR with the inbound
mask. -/
theorem apply_mask_merge_amended (inm cmask : ℕ → Bool) (cmDiff : ℕ → ℚ) (t : ℚ)
    (labels : ℕ → ℕ) (nlbl : ℕ) (sd : ℕ → ℚ) :
    (∀ i, (cloudFilterApplyMask inm cmDiff t).1 i
      = (inm i || (cloudFilterApplyMask inm cmDiff t).2 i))
    ∧ (∀ i, inm i = true → (cloudFilterApplyMask inm cmDiff t).1 i = true)
    ∧ (∀ i, (cloudFilterApplyMask inm cmDiff t).2 i = decide (cmDiff i > t))
    ∧ (∀ i, inm i = true → spatialHomogeneityMask inm cmask labels nlbl sd i = true) := by
  refine ⟨fun i => rfl, ?_, fun i => rfl, ?_⟩
  · intro i h
    show (inm i || _) = true
    rw [h, Bool.true_or]
  · intro i h
    rw [spatialHomogeneityMask_apply,
      if_neg (by rintro ⟨h1, h2, h3, h4⟩; rw [h] at h3; exact Bool.noConfusion h3)]
    exact h

/-- Witness for the amended C1 at a concrete masked pixel: it stays masked
in the returned value grid and through the homogeneity filter. -/
theorem apply_mask_merge_amended_wit :
    (cloudFilterApplyMask (fun _ => true) (fun _ => 0) 0).1 0 = true
    ∧ spatialHomogeneityMask (fun _ => true) (fun _ => false) (fun _ => 1) 1 (fun _ => 0) 0
      = true := by
  have h := apply_mask_merge_amended (fun _ => true) (fun _ => false) (fun _ => 0) 0
    (fun _ => 1) 1 (fun _ => 0)
  exact ⟨h.2.1 0 rfl, h.2.2.2 0 rfl⟩

/-! ### Claim theorems: cloud filter threshold (C3) -/

/-- Claim C3: whenever the candidate set is non-empty, the chosen threshold
is the largest bin edge among the histogram's local minima within
`[minpeak, maxpeak]` and below 0.5; exactly the pixels whose channel
difference exceeds it are masked; and the warning fires iff the threshold
lies outside `[-5, 0]`. -/
theorem cloud_threshold_spec (h0 h1 : List ℚ) (minpeak maxpeak : ℚ)
    (hne : cloudThresholdCandidates h0 h1 minpeak maxpeak ≠ []) :
    ∃ t, cloudThreshold h0 h1 minpeak maxpeak = some t
      ∧ t ∈ cloudThresholdCandidates h0 h1 minpeak maxpeak
      ∧ (∀ e ∈ cloudThresholdCandidates h0 h1 minpeak maxpeak, e ≤ t)
      ∧ (∀ inm cmDiff i, ((cloudFilterApplyMask inm cmDiff t).2 i = true ↔ cmDiff i > t))
      ∧ (cloudWarning t = true ↔ ¬((-5 : ℚ) ≤ t ∧ t ≤ 0)) := by
  have hsome : (cloudThresholdCandidates h0 h1 minpeak maxpeak).max?.isSome := by
    cases hc : cloudThresholdCandidates h0 h1 minpeak maxpeak with
    | nil => exact absurd hc hne
    | cons a as => rw [List.max?_cons']; rfl
  obtain ⟨t, ht⟩ := Option.isSome_iff_exists.mp hsome
  refine ⟨t, ht, ?_, ?_, ?_, ?_⟩
  · exact List.max?_mem (fun a b => max_choice a b) ht
  · intro e he
    exact ((List.max?_le_iff (fun a b c => max_le_iff) ht).mp (le_refl t)) e he
  · intro inm cmDiff i
    simp [cloudFilterApplyMask]
  · simp only [cloudWarning, Bool.or_eq_true, decide_eq_true_eq, not_and_or, not_le]
    tauto

/-- Witness for C3 on a concrete three-bin histogram with one local
minimum at bin edge -1. -/
theorem cloud_threshold_spec_wit :
    cloudThresholdCandidates [5, 1, 4] [-3, -1, 0, 1] (-3) 1 = [-1]
    ∧ ∃ t, cloudThreshold [5, 1, 4] [-3, -1, 0, 1] (-3) 1 = some t
      ∧ t ∈ cloudThresholdCandidates [5, 1, 4] [-3, -1, 0, 1] (-3) 1
      ∧ (∀ e ∈ cloudThresholdCandidates [5, 1, 4] [-3, -1, 0, 1] (-3) 1, e ≤ t)
      ∧ (∀ inm cmDiff i, ((cloudFilterApplyMask inm cmDiff t).2 i = true ↔ cmDiff i > t))
      ∧ (cloudWarning t = true ↔ ¬((-5 : ℚ) ≤ t ∧ t ≤ 0)) := by
  have hc : cloudThresholdCandidates [5, 1, 4] [-3, -1, 0, 1] (-3) 1 = [-1] := by
    norm_num [cloudThresholdCandidates, localMinIndices, npDiff, qSign, List.range_succ,
      List.filterMap_cons, Function.comp, List.getElem?_cons_zero, List.getElem?_cons_succ]
  exact ⟨hc, cloud_threshold_spec [5, 1, 4] [-3, -1, 0, 1] (-3) 1
    (by rw [hc]; exact List.cons_ne_nil _ _)⟩

/-! ### Claim theorems: low-cloud evaluator (C2, C4) -/

/-- Divergence witness for C2: with two clusters submitted as keys `[1, 2]`
and results completing in the order `[2, 1]`, the evaluator does return
exactly two results, but cluster 1's pixel receives cluster 2's
cloud-base height (attribution is positional, by completion order, not by
cluster label). -/
theorem lowcloud_attribution_divergence :
    ([2, 1] : List ℕ).Perm [1, 2]
    ∧ (([2, 1] : List ℕ).map (fun k =>
        if k = 1 then ((some 10 : Option ℚ), (some (-1) : Option ℚ))
        else (some 20, some (-1)))).length = ([1, 2] : List ℕ).length
    ∧ (lowCloudFilterRun (fun i => if i = 0 then 1 else 2) (fun _ => 0) (fun _ => false)
        [1, 2] [2, 1]
        (fun k => if k = 1 then ((some 10 : Option ℚ), (some (-1) : Option ℚ))
                  else (some 20, some (-1)))).cbh 0 = some 20
    ∧ (fun k => if k = 1 then ((some 10 : Option ℚ), (some (-1) : Option ℚ))
        else (some 20, some (-1))) 1 = (some 10, some (-1))
    ∧ ((fun i => if i = 0 then 1 else 2 : ℕ → ℕ) 0 = 1) := by
  refine ⟨List.Perm.swap 1 2 [], rfl, ?_, rfl, rfl⟩
  norm_num [lowCloudFilterRun, lowCloudAssemble, lcfStep, fbhGtElev]

/-- Counterexample for C4: under the completion order `[2, 1]` with
cluster 2's model invocation failing, cluster 2's pixel does NOT keep its
inbound mask value — it receives cluster 1's defined fog-base height and
gets masked (the positional attribution reroutes the NaN). -/
theorem lowcloud_nan_fallback_cex :
    (lowCloudFilterRun (fun i => if i = 0 then 1 else 2) (fun _ => 0) (fun _ => false)
        [1, 2] [2, 1]
        (fun k => if k = 1 then ((some 0 : Option ℚ), (some 500 : Option ℚ))
                  else (none, none))).fogMask 1 = true
    ∧ (fun k => if k = 1 then ((some 0 : Option ℚ), (some 500 : Option ℚ))
        else (none, none)) 2 = (none, none)
    ∧ ((fun i => if i = 0 then 1 else 2 : ℕ → ℕ) 1 = 2)
    ∧ ((fun _ => false : ℕ → Bool) 1 = false)
    ∧ ([2, 1] : List ℕ).Perm [1, 2] := by
  refine ⟨?_, rfl, rfl, rfl, List.Perm.swap 1 2 []⟩
  norm_num [lowCloudFilterRun, lowCloudAssemble, lcfStep, fbhGtElev]

/-- Claim C4 as amended: when results are collected in submission order
(the deterministic sequential completion), a cluster whose model raised is
recorded as `(NaN, NaN)`, the `NaN` fog-base height never satisfies the
`> 0` masking test against any elevation, the evaluator still yields one
result per submitted cluster, the failed cluster's pixels keep the initial
fog-mask value, and every cluster's pixels receive that cluster's own
heights. -/
theorem lowcloud_error_amended (labels : ℕ → ℕ) (elev : ℕ → ℚ) (cmask : ℕ → Bool)
    (keys : List ℕ) (run : ℕ → ℚ → Option (ℚ × ℚ)) (lwp : ℕ → ℚ) (kf : ℕ)
    (hnodup : keys.Nodup) (hkf : kf ∈ keys)
    (hfail : run kf (lwp kf * lwp_corr) = none) :
    get_fog_base_height (run kf) (lwp kf) = (none, none)
    ∧ (∀ e : ℚ, fbhGtElev (get_fog_base_height (run kf) (lwp kf)).2 e = false)
    ∧ (keys.map (fun k => get_fog_base_height (run k) (lwp k))).length = keys.length
    ∧ (∀ i, labels i = kf →
        (lowCloudFilterRun labels elev cmask keys keys
          (fun k => get_fog_base_height (run k) (lwp k))).fogMask i = cmask i)
    ∧ (∀ k, k ∈ keys → ∀ i, labels i = k →
        (lowCloudFilterRun labels elev cmask keys keys
          (fun k => get_fog_base_height (run k) (lwp k))).cbh i
          = (get_fog_base_height (run k) (lwp k)).1
        ∧ (lowCloudFilterRun labels elev cmask keys keys
          (fun k => get_fog_base_height (run k) (lwp k))).fbh i
          = (get_fog_base_height (run k) (lwp k)).2) := by
  have hnan : get_fog_base_height (run kf) (lwp kf) = (none, none) := by
    unfold get_fog_base_height
    rw [hfail]
  refine ⟨hnan, ?_, by rw [List.length_map], ?_, ?_⟩
  · intro e
    rw [hnan]
    rfl
  · intro i hi
    unfold lowCloudFilterRun lowCloudAssemble
    apply lcf_fold_fogMask_eq
    intro p hp hpi
    have h2 := mem_zip_self_map _ _ _ hp
    have hpk : p.1 = kf := by rw [hpi, hi]
    rw [h2.1, hpk, hnan]
  · intro k hk i hi
    unfold lowCloudFilterRun lowCloudAssemble
    apply lcf_fold_attr
    · rw [zip_self_map_fst]
      exact hnodup
    · exact zip_self_map_mem _ keys k hk
    · exact hi

/-- Witness for the amended C4: two clusters, cluster 2's model raises,
sequential completion; cluster 2's pixel keeps its (false) initial mask. -/
theorem lowcloud_error_amended_wit :
    (lowCloudFilterRun (fun i => if i = 0 then 1 else 2) (fun _ => 0) (fun _ => false)
        [1, 2] [1, 2]
        (fun k => get_fog_base_height
          ((fun k2 (_ : ℚ) => if k2 = 1 then some ((7 : ℚ), (-3 : ℚ)) else none) k)
          ((fun _ => (1 : ℚ)) k))).fogMask 1 = false := by
  have h := lowcloud_error_amended (fun i => if i = 0 then 1 else 2) (fun _ => 0)
    (fun _ => false) [1, 2]
    (fun k2 (_ : ℚ) => if k2 = 1 then some ((7 : ℚ), (-3 : ℚ)) else none)
    (fun _ => (1 : ℚ)) 2 (by decide) (by simp) rfl
  exact h.2.2.2.1 1 rfl

/-! ### Claim theorems: label-grid read-only (C9) -/

/-- Counterexample for C9: the cloud-top-height filter changes the label
grid's mask (pixel 0 of a cluster reaching above 2000 m is masked in the
cluster grid's own mask after `apply()`). -/
theorem label_grid_mutation_cex :
    (spatialCTH_run (fun _ => 1) (fun _ => false) [(1, [2500])]).clustersMaskOut 0 = true
    ∧ ((fun _ => false : ℕ → Bool) 0 = false) := by
  constructor
  · show spatialCTH_cluster_mask (fun _ => false) (fun _ => 1) [(1, [2500])] 0 = true
    rw [spatialCTH_mask_apply]
    norm_num
  · rfl

/-- Claim C9 as amended: the label grid's data is read-only, but its mask
is updated in place by the cloud-top-height filter and the low-cloud
evaluator, and the mask each returns is that same updated cluster-grid
mask (never a fresh object); the update only ever adds masked pixels. -/
theorem label_grid_mutation_amended (labels : ℕ → ℕ) (cmask : ℕ → Bool)
    (cz : List (ℕ × List ℚ)) (elev : ℕ → ℚ) (keys completion : List ℕ)
    (f : ℕ → Option ℚ × Option ℚ) :
    (spatialCTH_run labels cmask cz).labelsOut = labels
    ∧ (spatialCTH_run labels cmask cz).maskOut = (spatialCTH_run labels cmask cz).clustersMaskOut
    ∧ (∀ i, cmask i = true → (spatialCTH_run labels cmask cz).clustersMaskOut i = true)
    ∧ (∀ i, cmask i = true →
        (lowCloudFilterRun labels elev cmask keys completion f).fogMask i = true) := by
  refine ⟨rfl, rfl, ?_, ?_⟩
  · intro i h
    show spatialCTH_cluster_mask cmask labels cz i = true
    rw [spatialCTH_mask_apply, h, Bool.true_or]
  · intro i h
    exact lcf_fold_fogMask_mono labels elev i _ _ h

/-- Witness for the amended C9 at a concrete masked pixel. -/
theorem label_grid_mutation_amended_wit :
    (spatialCTH_run (fun _ => 1) (fun _ => true) [(1, [2500])]).clustersMaskOut 0 = true :=
  (label_grid_mutation_amended (fun _ => 1) (fun _ => true) [(1, [2500])]
    (fun _ => 0) [] [] (fun _ => (none, none))).2.2.1 0 rfl

/-! ### Claim theorems: water-cloud filter (C7) -/

/-- Counterexample for C7: a cloudy-row pixel whose 3.9 um value (5)
exceeds the row's cloud-free mean (1) is NOT flagged by the droplet-proxy
test — the code flags `value <= mean`, the opposite direction of the
claim (the phase test is 0 at both pixels, so the final mask equals the
droplet flags). -/
theorem watercloud_flag_cex :
    waterCloudMask [[1, 1]] [[1, 1]] [[1, 5]] [[true, false]] 1 = [[true, false]]
    ∧ rowCloudFreeMean [1, 5] [true, false] = some 1
    ∧ ((5 : ℚ) > 1)
    ∧ ndsi 1 1 = 0 := by
  refine ⟨?_, ?_, by norm_num, by norm_num [ndsi]⟩
  · norm_num [waterCloudMask, waterCloudDropMask, latCloudfree, find_watercloud,
      rowCloudFreeMean, ndsi, List.filterMap_cons, List.replicate]
  · norm_num [rowCloudFreeMean, List.filterMap_cons]

/-- Claim C7 as amended: a pixel is flagged by the droplet-proxy test
exactly when its 3.9 um value is at or below its row's cloud-free mean
(falling back to `g`, the mean of the defined row means, when the row's
own mean is undefined), and the final mask is the OR of the phase test
`ndsi > 0.1` with this droplet test. -/
theorem watercloud_flag_amended (vis006 nir016 ir039 : List (List ℚ))
    (cloudmask : List (List Bool)) (g : ℚ) (r c : ℕ) (v n x : ℚ)
    (rowI : List ℚ) (rowM : List Bool)
    (hv : (vis006.get? r).bind (fun row => row.get? c) = some v)
    (hn : (nir016.get? r).bind (fun row => row.get? c) = some n)
    (hi : ir039.get? r = some rowI)
    (hm : cloudmask.get? r = some rowM)
    (hx : rowI.get? c = some x) :
    ((waterCloudMask vis006 nir016 ir039 cloudmask g).get? r).bind (fun row => row.get? c)
      = some (decide (1/10 < ndsi v n) ||
          (match rowCloudFreeMean rowI rowM with
           | some t => decide (x ≤ t)
           | none => decide (x ≤ g))) := by
  rcases Option.bind_eq_some.mp hv with ⟨rowV, hrv, hvc⟩
  rcases Option.bind_eq_some.mp hn with ⟨rowN, hrn, hnc⟩
  simp only [waterCloudMask, waterCloudDropMask, latCloudfree, List.get?_zipWith',
    hrv, hrn, hi, hm, Option.map_some', Option.some_bind]
  cases hmean : rowCloudFreeMean rowI rowM with
  | some t =>
    simp only [find_watercloud, List.get?_zipWith', List.get?_map, hvc, hnc, hx,
      Option.map_some', Option.some_bind]
  | none =>
    simp only [find_watercloud, List.get?_zipWith', List.get?_map, hvc, hnc, hx,
      Option.map_some', Option.some_bind]

/-- Witness for the amended C7 on the counterexample scene. -/
theorem watercloud_flag_amended_wit :
    ((waterCloudMask [[1, 1]] [[1, 1]] [[1, 5]] [[true, false]] 1).get? 0).bind
      (fun row => row.get? 1)
      = some (decide ((1 : ℚ)/10 < ndsi 1 1) ||
          (match rowCloudFreeMean [1, 5] [true, false] with
           | some t => decide ((5 : ℚ) ≤ t)
           | none => decide ((5 : ℚ) ≤ 1))) :=
  watercloud_flag_amended [[1, 1]] [[1, 1]] [[1, 5]] [[true, false]] 1 0 1 1 1 5
    [1, 5] [true, false] rfl rfl rfl rfl rfl

/-! ### Claim theorems: filter contract (C8) -/

/-- Counterexample for C8: `isapplicable` returns true for a filter whose
two required inputs are present with incompatible shapes (2, 2) and
(3, 3) — presence alone is checked, shapes are not. -/
theorem isapplicable_shape_cex :
    isapplicable ["ir108", "ir039"] [("ir108", 2, 2), ("ir039", 3, 3)] = true
    ∧ ([("ir108", (2 : ℕ), (2 : ℕ)), ("ir039", 3, 3)].map (fun p => p.2))
      = [(2, 2), (3, 3)]
    ∧ ((2, 2) : ℕ × ℕ) ≠ (3, 3) := by
  refine ⟨by decide, rfl, by decide⟩

/-- Claim C8 as amended: `isapplicable` returns true iff every required
attribute is present by name (shape compatibility is not checked), the
reported missing list is exactly the required attributes without a present
counterpart, and `apply()` on a non-applicable filter fails with the
not-applicable error naming the filter without consulting the filter
algorithm's output. -/
theorem isapplicable_amended (attrlist : List String) (present : List (String × ℕ × ℕ))
    (name : String) {α : Type} (out1 out2 : α) :
    (isapplicable attrlist present = true ↔ ∀ a ∈ attrlist, ∃ p ∈ present, p.1 = a)
    ∧ (∀ a, a ∈ missingAttrs attrlist present ↔
        (a ∈ attrlist ∧ ¬ ∃ p ∈ present, p.1 = a))
    ∧ (isapplicable attrlist present = false →
        baseApply name attrlist present out1
          = Except.error ("Array filter <" ++ name ++ "> is not applicable")
        ∧ baseApply name attrlist present out1 = baseApply name attrlist present out2)
    ∧ (isapplicable attrlist present = true →
        baseApply name attrlist present out1 = Except.ok out1) := by
  refine ⟨?_, ?_, ?_, ?_⟩
  · simp [isapplicable, List.all_eq_true, List.any_eq_true, beq_iff_eq]
  · intro a
    simp only [missingAttrs, List.mem_filter, List.any_eq_true, beq_iff_eq,
      Bool.not_eq_true', decide_eq_false_iff_not]
    constructor
    · rintro ⟨ha, hno⟩
      refine ⟨ha, ?_⟩
      rintro ⟨p, hp, heq⟩
      rw [List.any_eq_false] at hno
      exact hno p hp (by simp [heq])
    · rintro ⟨ha, hno⟩
      refine ⟨ha, ?_⟩
      rw [Bool.eq_false_iff]
      intro hany
      rcases List.any_eq_true.mp hany with ⟨p, hp, heq⟩
      exact hno ⟨p, hp, by simpa using heq⟩
  · intro h
    constructor <;> simp [baseApply, h]
  · intro h
    unfold baseApply
    rw [if_pos h]

/-- Witness for the amended C8: a filter whose single required input is
absent fails with the named error, independent of the algorithm output. -/
theorem isapplicable_amended_wit :
    baseApply "CloudFilter" ["ir108"] [] (0 : ℕ)
      = Except.error ("Array filter <" ++ "CloudFilter" ++ "> is not applicable")
    ∧ baseApply "CloudFilter" ["ir108"] [] (0 : ℕ)
      = baseApply "CloudFilter" ["ir108"] [] (1 : ℕ) :=
  (isapplicable_amended ["ir108"] [] "CloudFilter" 0 1).2.2.1 rfl

end Fogpy
